import Mathlib

/-!
Shallow embedding of the play-webgl effect transition engine and multi-pass
renderer, with theorems checking the claims of the specification against it.

Sources embedded:
- `src/utils.ts` — effect registry (`ShaderEffect`, `shaderEffects`) and
  `getTextureCoordinates`;
- `src/transitions.ts` — transition engine (`createInitialTransitions`,
  `startTransition`, `updateTransitions`, `easeInOutCubic`,
  `hasActiveTransitions`, `getRenderIntensity`);
- `src/hooks/useEffectTransitions.ts` — the debounced toggle handler
  (`handleToggleEffect`, `DEBOUNCE_DELAY_MS`);
- `src/hooks/useWebGLRenderer.ts` — the per-frame multi-pass draw sequence
  (`renderFrame`), modelled as the list of draw calls it issues together with
  an abstract account of the image each pass produces.

JavaScript numbers are modelled as rationals (`ℚ`), so every definition is
executable and concrete evaluations are settled by `norm_num`/`simp`/`decide`.
-/

namespace PlayWebGL

/-! ## Effect registry (src/utils.ts) -/

/-- The closed set of effect identifiers (`enum ShaderEffect`). -/
inductive ShaderEffect where
  | INVERT
  | GRAYSCALE
  | REALITY_GLITCH
  | KALEIDOSCOPE
  | DISPLACE
  | SWIRL
  | CHROMA
  | PIXELATE
  | VORONOI
  | RIPPLE
deriving DecidableEq, Repr, Fintype

/-- Declaration order of the enum: the order `Object.values(ShaderEffect)`
yields, used as the canonical registry order. -/
def allEffects : List ShaderEffect :=
  [.INVERT, .GRAYSCALE, .REALITY_GLITCH, .KALEIDOSCOPE, .DISPLACE,
   .SWIRL, .CHROMA, .PIXELATE, .VORONOI, .RIPPLE]

/-- Pipeline stage of an effect (the mapping or color stage string). -/
inductive Stage where
  | mapping
  | color
deriving DecidableEq, Repr

/-- `interface ShaderEffectDef` (the shader source string is omitted: no claim
refers to it). `intensity` is the optional default-intensity field; an effect
has an intensity control iff it is present. -/
structure ShaderEffectDef where
  stage : Stage
  intensity : Option ℚ
deriving DecidableEq, Repr

/-- The static registry `shaderEffects`. -/
def shaderEffects : ShaderEffect → ShaderEffectDef
  | .INVERT => ⟨.color, some 1⟩
  | .GRAYSCALE => ⟨.color, none⟩
  | .REALITY_GLITCH => ⟨.mapping, some 1⟩
  | .KALEIDOSCOPE => ⟨.mapping, none⟩
  | .DISPLACE => ⟨.mapping, some 1⟩
  | .SWIRL => ⟨.mapping, none⟩
  | .CHROMA => ⟨.color, some 1⟩
  | .PIXELATE => ⟨.mapping, some 1⟩
  | .VORONOI => ⟨.mapping, some 1⟩
  | .RIPPLE => ⟨.color, some 1⟩

/-! ## Transition engine (src/transitions.ts) -/

def TRANSITION_DURATION : ℚ := 300

/-- `type TransitionState`: idle, transitioning-in, or transitioning-out. -/
inductive TransitionState where
  | idle
  | transitioningIn
  | transitioningOut
deriving DecidableEq, Repr

/-- `interface EffectTransition`. -/
structure EffectTransition where
  state : TransitionState
  currentIntensity : ℚ
  targetIntensity : ℚ
  startIntensity : ℚ
  progress : ℚ
  startTime : ℚ
  isActive : Bool
deriving DecidableEq, Repr

/-- `type EffectTransitions = Record<ShaderEffect, EffectTransition>`. -/
def EffectTransitions : Type := ShaderEffect → EffectTransition

instance : DecidableEq EffectTransitions :=
  inferInstanceAs (DecidableEq (ShaderEffect → EffectTransition))

/-- `easeInOutCubic`: `t < 0.5 ? 4*t*t*t : 1 - Math.pow(-2*t+2, 3)/2`. -/
def easeInOutCubic (t : ℚ) : ℚ :=
  if t < 1/2 then 4 * t * t * t else 1 - (-2 * t + 2) ^ 3 / 2

/-- `createInitialTransitions`: every effect starts idle at intensity 0. -/
def createInitialTransitions : EffectTransitions :=
  fun _ =>
    { state := .idle
      currentIntensity := 0
      targetIntensity := 0
      startIntensity := 0
      progress := 0
      startTime := 0
      isActive := false }

/-- `startTransition(transitions, effect, targetIntensity, now)`. -/
def startTransition (transitions : EffectTransitions) (effect : ShaderEffect)
    (targetIntensity : ℚ) (now : ℚ) : EffectTransitions :=
  let current := transitions effect
  let hasIntensityControl := (shaderEffects effect).intensity.isSome
  let entry : EffectTransition :=
    if hasIntensityControl then
      { current with
        state := if 0 < targetIntensity then .transitioningIn else .transitioningOut
        targetIntensity := targetIntensity
        startIntensity := current.currentIntensity
        startTime := now
        progress := 0
        isActive := true }
    else
      { current with
        state := .idle
        currentIntensity := targetIntensity
        targetIntensity := targetIntensity
        startIntensity := targetIntensity
        progress := 1
        startTime := now
        isActive := decide (0 < targetIntensity) }
  fun e => if e = effect then entry else transitions e

/-- The per-entry body of `updateTransitions`: idle entries are skipped, the
rest get the eased interpolation, and a finished transition (raw progress at
least 1) is snapped to its target and returned to idle. -/
def updateTransition (transition : EffectTransition) (now : ℚ) : EffectTransition :=
  if transition.state = .idle then transition
  else
    let elapsed := now - transition.startTime
    let rawProgress := min (elapsed / TRANSITION_DURATION) 1
    let easedProgress := easeInOutCubic rawProgress
    let newIntensity :=
      if transition.state = .transitioningIn then
        transition.startIntensity +
          easedProgress * (transition.targetIntensity - transition.startIntensity)
      else
        transition.startIntensity +
          easedProgress * (transition.targetIntensity - transition.startIntensity)
    let updated := { transition with currentIntensity := newIntensity, progress := rawProgress }
    if 1 ≤ rawProgress then
      { updated with
        state := .idle
        currentIntensity := transition.targetIntensity
        isActive := decide (0 < transition.targetIntensity) }
    else updated

/-- `hasActiveTransitions`: the state of some effect is not idle. -/
def hasActiveTransitions (transitions : EffectTransitions) : Bool :=
  allEffects.any fun e => (transitions e).state ≠ .idle

/-- `updateTransitions(transitions, now)`: updates every non-idle entry; when
no entry was non-idle (`hasChanges` stayed false) the input object itself is
returned. -/
def updateTransitions (transitions : EffectTransitions) (now : ℚ) : EffectTransitions :=
  if hasActiveTransitions transitions then
    fun e => updateTransition (transitions e) now
  else transitions

/-- `getRenderIntensity(transition, userIntensity)`. -/
def getRenderIntensity (transition : EffectTransition) (userIntensity : ℚ) : ℚ :=
  transition.currentIntensity * userIntensity

/-! ## Debounced toggle handler (src/hooks/useEffectTransitions.ts) -/

def DEBOUNCE_DELAY_MS : ℚ := 50

/-- The state the toggle handler closes over: the `lastToggleTime` ref (a
record with possibly-missing entries, read as `lastToggleTime[effect] || 0`),
the `activeEffects` user-intent flags, and the transition table. -/
structure ToggleState where
  lastToggleTime : ShaderEffect → Option ℚ
  activeEffects : ShaderEffect → Bool
  transitions : EffectTransitions

/-- The debounce gate of `handleToggleEffect`: the request is dropped when
`now - (lastToggleTime[effect] || 0) < DEBOUNCE_DELAY_MS`. -/
def toggleAccepted (s : ToggleState) (effect : ShaderEffect) (now : ℚ) : Bool :=
  !decide (now - ((s.lastToggleTime effect).getD 0) < DEBOUNCE_DELAY_MS)

/-- `handleToggleEffect(effect)` at timestamp `now`: if the debounce gate
passes, record `now` as the last accepted toggle time of the effect, flip the
user-intent flag, and call `startTransition` with target 1 (toggling on) or 0
(toggling off); otherwise return with no change. -/
def handleToggleEffect (s : ToggleState) (effect : ShaderEffect) (now : ℚ) : ToggleState :=
  let lastTime := (s.lastToggleTime effect).getD 0
  if now - lastTime < DEBOUNCE_DELAY_MS then s
  else
    let nextEffect := !s.activeEffects effect
    let targetIntensity : ℚ := if nextEffect then 1 else 0
    { lastToggleTime := fun e => if e = effect then some now else s.lastToggleTime e
      activeEffects := fun e => if e = effect then nextEffect else s.activeEffects e
      transitions := startTransition s.transitions effect targetIntensity now }

/-! ## Aspect-ratio texture coordinates (src/utils.ts) -/

/-- `getTextureCoordinates(videoWidth, videoHeight, canvasWidth, canvasHeight)`:
the 12 floats (six u,v pairs for two triangles) uploaded for the
video-sampling pass, returned here as a list in array order. -/
def getTextureCoordinates (videoWidth videoHeight canvasWidth canvasHeight : ℚ) : List ℚ :=
  let videoAspect := videoWidth / videoHeight
  let canvasAspect := canvasWidth / canvasHeight
  if videoAspect < canvasAspect then
    let vCrop := (1 - videoAspect / canvasAspect) / 2
    [0, vCrop, 1, vCrop, 0, 1 - vCrop,
     0, 1 - vCrop, 1, vCrop, 1, 1 - vCrop]
  else
    let uCrop := (1 - canvasAspect / videoAspect) / 2
    [uCrop, 0, 1 - uCrop, 0, uCrop, 1,
     uCrop, 1, 1 - uCrop, 0, 1 - uCrop, 1]

/-! ## Per-frame multi-pass renderer (src/hooks/useWebGLRenderer.ts)

`renderFrame` is modelled by the ordered list of `gl.drawArrays` calls it
issues — each recorded with the program it binds, the framebuffer it targets,
the texture-coordinate buffer it attaches, and the texture it samples — plus
an abstract account of the image each pass produces. The image semantics
mirrors the shaders (src/shaderBuilder.ts): the video-sampling program drawn
with the aspect-ratio-corrected coordinate buffer produces the
aspect-corrected video; an effect program applies its effect to the sampled
image; the passthrough program reproduces its input unchanged. -/

/-- Which texture a draw call samples (`currentTexture` in the code). -/
inductive TexSrc where
  | videoTex
  | targetTex (i : Fin 2)
deriving DecidableEq, Repr

/-- Which program a draw call binds. -/
inductive ProgramId where
  | videoSampling
  | effectProg (e : ShaderEffect)
  | passthrough
deriving DecidableEq, Repr

/-- Which framebuffer a draw call targets (`null` = the screen). -/
inductive DrawTarget where
  | renderTarget (i : Fin 2)
  | screen
deriving DecidableEq, Repr

/-- Which texture-coordinate buffer a draw call attaches. -/
inductive CoordsKind where
  | aspect
  | standard
deriving DecidableEq, Repr

/-- One `gl.drawArrays` invocation. -/
structure DrawCall where
  program : ProgramId
  target : DrawTarget
  coords : CoordsKind
  source : TexSrc
deriving DecidableEq, Repr

/-- Abstract image values: the aspect-corrected video, or an effect applied to
an image. -/
inductive Image where
  | aspectVideo
  | effected (e : ShaderEffect) (src : Image)
deriving DecidableEq, Repr

/-- The loop state of the effect-pass `forEach`: `currentTexture`, the image
it holds, `currentRenderTarget`, and the draw calls issued so far. -/
structure EffectPassState where
  currentTexture : TexSrc
  currentContent : Image
  currentRenderTarget : Fin 2
  draws : List DrawCall
deriving DecidableEq, Repr

/-- One iteration of the effect loop: draw the effect into
`renderTargets[currentRenderTarget]` sampling `currentTexture`, then advance
`currentTexture` to the texture of that target and flip `currentRenderTarget`. -/
def applyEffectPass (st : EffectPassState) (effect : ShaderEffect) : EffectPassState :=
  { currentTexture := .targetTex st.currentRenderTarget
    currentContent := .effected effect st.currentContent
    currentRenderTarget := ⟨(st.currentRenderTarget.val + 1) % 2, by omega⟩
    draws := st.draws ++
      [{ program := .effectProg effect
         target := .renderTarget st.currentRenderTarget
         coords := .standard
         source := st.currentTexture }] }

/-- `renderFrame`: returns the ordered draw-call list and the abstract image
finally shown on screen. With no active effect, one video-sampling draw goes
straight to the screen with aspect-corrected coordinates; otherwise the video
is sampled into render target 0, the active effects (registry order) are
applied ping-ponging between the two targets, and a passthrough draw blits the
final target to the screen. -/
def renderFrame (activeEffects : ShaderEffect → Bool) : List DrawCall × Image :=
  let activeEffectsList := allEffects.filter activeEffects
  if activeEffectsList.length > 0 then
    let firstPass : DrawCall :=
      { program := .videoSampling, target := .renderTarget 0
        coords := .aspect, source := .videoTex }
    let st0 : EffectPassState :=
      { currentTexture := .targetTex 0, currentContent := .aspectVideo
        currentRenderTarget := 1, draws := [firstPass] }
    let st := activeEffectsList.foldl applyEffectPass st0
    let finalPass : DrawCall :=
      { program := .passthrough, target := .screen
        coords := .standard, source := st.currentTexture }
    (st.draws ++ [finalPass], st.currentContent)
  else
    ([{ program := .videoSampling, target := .screen
        coords := .aspect, source := .videoTex }], .aspectVideo)

/-! ## Spec-side definitions

These two definitions follow the wording of the specification, not the source;
they exist only to compare the claimed update formula with the coded one. -/

/-- Modelled from the spec: `clamp(x, 0, 1)` as used in the claimed
`rawProgress = clamp(elapsed / TRANSITION_DURATION, 0, 1)`. -/
def spec_clamp01 (x : ℚ) : ℚ := max 0 (min x 1)

/-- Modelled from the spec: the claimed updated intensity
`startIntensity + easeInOutCubic(clamp(elapsed/300, 0, 1)) * (target - start)`. -/
def spec_updatedIntensity (tr : EffectTransition) (now : ℚ) : ℚ :=
  tr.startIntensity +
    easeInOutCubic (spec_clamp01 ((now - tr.startTime) / TRANSITION_DURATION)) *
      (tr.targetIntensity - tr.startIntensity)

/-! ## Sample states used by witnesses and counterexamples -/

/-- A state in which every effect is mid fade-in: the transition started at
time 300 toward target intensity 1 from intensity 0. -/
def lateStartState : EffectTransitions := fun _ =>
  { state := .transitioningIn
    currentIntensity := 0
    targetIntensity := 1
    startIntensity := 0
    progress := 0
    startTime := 300
    isActive := true }

/-- A state in which every effect is mid fade-in from a transition that
started at time 0 toward target intensity 1 from intensity 1/4. -/
def fadingState : EffectTransitions := fun _ =>
  { state := .transitioningIn
    currentIntensity := 1/4
    targetIntensity := 1
    startIntensity := 1/4
    progress := 0
    startTime := 0
    isActive := true }

/-! ## Further definitions for the claims -/

/-- The invariant of claim C6: the current intensity of an idle entry equals
its target intensity. -/
def IdleInv (ts : EffectTransitions) : Prop :=
  ∀ e, (ts e).state = .idle → (ts e).currentIntensity = (ts e).targetIntensity

/-- The states reachable from `createInitialTransitions` by any sequence of
`startTransition` and `updateTransitions` calls. -/
inductive Reachable : EffectTransitions → Prop where
  | init : Reachable createInitialTransitions
  | start (ts : EffectTransitions) (e : ShaderEffect) (target now : ℚ) :
      Reachable ts → Reachable (startTransition ts e target now)
  | update (ts : EffectTransitions) (now : ℚ) :
      Reachable ts → Reachable (updateTransitions ts now)

/-- The toggle-handler state at page load: no toggle recorded yet, every
user-intent flag off, initial transition table. -/
def toggleStart : ToggleState :=
  { lastToggleTime := fun _ => none
    activeEffects := fun _ => false
    transitions := createInitialTransitions }

/-- Ping-pong render-target index: the parity of the number of passes done so
far into the two-target chain. -/
def pingPong (i : ℕ) : Fin 2 := ⟨i % 2, Nat.mod_lt i (by norm_num)⟩

/-- The expected effect-pass draw calls when the pass before the first listed
effect wrote render target `pingPong k`: each effect reads the target the
previous pass wrote and writes the other one. -/
def effectDraws (k : ℕ) : List ShaderEffect → List DrawCall
  | [] => []
  | e :: rest =>
      { program := .effectProg e
        target := .renderTarget (pingPong (k + 1))
        coords := .standard
        source := .targetTex (pingPong k) } :: effectDraws (k + 1) rest

/-- A concrete active-effect predicate selecting GRAYSCALE and SWIRL. -/
def actTwo : ShaderEffect → Bool :=
  fun e => decide (e = ShaderEffect.GRAYSCALE ∨ e = ShaderEffect.SWIRL)

/-! ## Helper lemmas -/

lemma mem_allEffects (e : ShaderEffect) : e ∈ allEffects := by
  cases e <;> decide

lemma hasActiveTransitions_of_nonidle {ts : EffectTransitions} {e : ShaderEffect}
    (h : (ts e).state ≠ .idle) : hasActiveTransitions ts = true := by
  simp only [hasActiveTransitions, List.any_eq_true]
  exact ⟨e, mem_allEffects e, by simpa using h⟩

lemma updateTransitions_eq_active {ts : EffectTransitions} (now : ℚ)
    (h : hasActiveTransitions ts = true) :
    updateTransitions ts now = fun e => updateTransition (ts e) now := by
  rw [updateTransitions, if_pos h]

lemma updateTransitions_apply_active {ts : EffectTransitions} {e : ShaderEffect}
    (now : ℚ) (h : (ts e).state ≠ .idle) :
    updateTransitions ts now e = updateTransition (ts e) now := by
  rw [updateTransitions_eq_active now (hasActiveTransitions_of_nonidle h)]

lemma updateTransitions_apply_idle (ts : EffectTransitions) (now : ℚ) (e : ShaderEffect)
    (h : (ts e).state = .idle) : updateTransitions ts now e = ts e := by
  rw [updateTransitions]
  split
  · show updateTransition (ts e) now = ts e
    rw [updateTransition, if_pos h]
  · rfl

lemma foldl_preserves_idle (ns : List ℚ) (ts : EffectTransitions) (e : ShaderEffect)
    (h : (ts e).state = .idle) : (ns.foldl updateTransitions ts) e = ts e := by
  induction ns generalizing ts with
  | nil => rfl
  | cons n rest ih =>
    rw [List.foldl_cons]
    have hstep := updateTransitions_apply_idle ts n e h
    rw [ih _ (by rw [hstep]; exact h), hstep]

lemma updateTransition_intensity (tr : EffectTransition) (now : ℚ)
    (h : tr.state ≠ .idle) :
    (updateTransition tr now).currentIntensity =
      tr.startIntensity +
        easeInOutCubic (min ((now - tr.startTime) / TRANSITION_DURATION) 1) *
          (tr.targetIntensity - tr.startIntensity) := by
  rw [updateTransition, if_neg h]
  simp only [ite_self]
  split
  · next hraw =>
    have hmin : min ((now - tr.startTime) / TRANSITION_DURATION) 1 = 1 :=
      le_antisymm (min_le_right _ _) hraw
    rw [hmin]
    norm_num [easeInOutCubic]
  · rfl

lemma updateTransition_complete (tr : EffectTransition) (now : ℚ)
    (h : tr.state ≠ .idle) (hnow : tr.startTime + TRANSITION_DURATION ≤ now) :
    (updateTransition tr now).currentIntensity = tr.targetIntensity ∧
      (updateTransition tr now).state = .idle ∧
      (updateTransition tr now).isActive = decide (0 < tr.targetIntensity) := by
  have hdur : (0:ℚ) < TRANSITION_DURATION := by norm_num [TRANSITION_DURATION]
  have hraw1 : (1:ℚ) ≤ (now - tr.startTime) / TRANSITION_DURATION := by
    rw [le_div_iff₀ hdur]
    linarith
  rw [updateTransition, if_neg h]
  simp only [ite_self]
  split
  · exact ⟨rfl, rfl, rfl⟩
  · next hcon => exact absurd (le_min hraw1 le_rfl) hcon

lemma startTransition_apply_other (ts : EffectTransitions) (e x : ShaderEffect)
    (target now : ℚ) (h : x ≠ e) : startTransition ts e target now x = ts x := by
  simp only [startTransition]
  rw [if_neg h]

lemma startTransition_apply_self_control (ts : EffectTransitions) (e : ShaderEffect)
    (target now : ℚ) (hc : ((shaderEffects e).intensity).isSome = true) :
    startTransition ts e target now e =
      { ts e with
        state := if 0 < target then .transitioningIn else .transitioningOut
        targetIntensity := target
        startIntensity := (ts e).currentIntensity
        startTime := now
        progress := 0
        isActive := true } := by
  simp only [startTransition, hc, if_true]

lemma startTransition_apply_self_binary (ts : EffectTransitions) (e : ShaderEffect)
    (target now : ℚ) (hc : (shaderEffects e).intensity = none) :
    startTransition ts e target now e =
      { ts e with
        state := .idle
        currentIntensity := target
        targetIntensity := target
        startIntensity := target
        progress := 1
        startTime := now
        isActive := decide (0 < target) } := by
  simp only [startTransition, hc, Option.isSome_none, Bool.false_eq_true, if_false]
  rw [if_pos trivial]

lemma IdleInv_startTransition {ts : EffectTransitions} (inv : IdleInv ts)
    (e : ShaderEffect) (target now : ℚ) : IdleInv (startTransition ts e target now) := by
  intro x
  by_cases hx : x = e
  · subst hx
    by_cases hc : ((shaderEffects x).intensity).isSome = true
    · rw [startTransition_apply_self_control ts x target now hc]
      intro hstate
      exfalso
      revert hstate
      split <;> simp
    · rw [startTransition_apply_self_binary ts x target now
        (Option.not_isSome_iff_eq_none.mp (by simpa using hc))]
      intro _
      rfl
  · rw [startTransition_apply_other ts e x target now hx]
    exact inv x

lemma IdleInv_updateTransitions {ts : EffectTransitions} (inv : IdleInv ts)
    (now : ℚ) : IdleInv (updateTransitions ts now) := by
  intro x
  by_cases hact : hasActiveTransitions ts = true
  · rw [updateTransitions_eq_active now hact]
    show (updateTransition (ts x) now).state = .idle →
      (updateTransition (ts x) now).currentIntensity =
        (updateTransition (ts x) now).targetIntensity
    by_cases hidle : (ts x).state = .idle
    · rw [updateTransition, if_pos hidle]
      exact inv x
    · rw [updateTransition, if_neg hidle]
      simp only [ite_self]
      split
      · intro _
        rfl
      · intro hstate
        exact absurd hstate hidle
  · rw [updateTransitions, if_neg hact]
    exact inv x

/-! ## Claims -/

/-- C1 (counterexample): the claim computes `rawProgress` with a two-sided
clamp to `[0, 1]`, but the code (`Math.min(elapsed / TRANSITION_DURATION, 1)`)
only clamps from above. On a state whose transition started at time 300,
updating at time 0 gives raw progress `-1` in the code (eased to `-4`), while
the clamped formula of the claim yields the start intensity `0`; the produced
current intensity differs from the claimed one. -/
theorem C1_clamp_counterexample :
    (lateStartState ShaderEffect.INVERT).state ≠ TransitionState.idle ∧
      (updateTransitions lateStartState 0 ShaderEffect.INVERT).currentIntensity ≠
        spec_updatedIntensity (lateStartState ShaderEffect.INVERT) 0 := by
  constructor
  · decide
  · simp +decide only [updateTransitions, hasActiveTransitions, allEffects,
      lateStartState, updateTransition, spec_updatedIntensity, spec_clamp01,
      easeInOutCubic, TRANSITION_DURATION]
    norm_num [min_def, max_def]

/-- C1 (amended): for every state and timestamp, `updateTransitions` sets each
current intensity of each non-idle effect to
`startIntensity + easeInOutCubic(rawProgress) * (targetIntensity - startIntensity)`,
where `rawProgress = min(elapsed / TRANSITION_DURATION, 1)` — clamped from
above only, not to `[0, 1]` (the two formulas agree whenever `now ≥ startTime`). -/
theorem C1_update_intensity_formula (ts : EffectTransitions) (now : ℚ)
    (e : ShaderEffect) (h : (ts e).state ≠ .idle) :
    (updateTransitions ts now e).currentIntensity =
      (ts e).startIntensity +
        easeInOutCubic (min ((now - (ts e).startTime) / TRANSITION_DURATION) 1) *
          ((ts e).targetIntensity - (ts e).startIntensity) := by
  rw [updateTransitions_apply_active now h]
  exact updateTransition_intensity (ts e) now h

/-- C1 witness: the amended formula evaluated mid-fade on a concrete state. -/
theorem C1_update_intensity_formula_witness :
    (updateTransitions fadingState 150 ShaderEffect.INVERT).currentIntensity =
      (fadingState ShaderEffect.INVERT).startIntensity +
        easeInOutCubic
            (min ((150 - (fadingState ShaderEffect.INVERT).startTime) / TRANSITION_DURATION) 1) *
          ((fadingState ShaderEffect.INVERT).targetIntensity -
            (fadingState ShaderEffect.INVERT).startIntensity) :=
  C1_update_intensity_formula fadingState 150 ShaderEffect.INVERT (by decide)

/-- C2: updating a non-idle effect at or after `startTime + TRANSITION_DURATION`
snaps its current intensity exactly to the target intensity, returns its phase
to idle, and sets `isActive` to whether the target intensity is positive. -/
theorem C2_completion_snap (ts : EffectTransitions) (now : ℚ) (e : ShaderEffect)
    (h : (ts e).state ≠ .idle) (hnow : (ts e).startTime + TRANSITION_DURATION ≤ now) :
    (updateTransitions ts now e).currentIntensity = (ts e).targetIntensity ∧
      (updateTransitions ts now e).state = TransitionState.idle ∧
      (updateTransitions ts now e).isActive = decide (0 < (ts e).targetIntensity) := by
  rw [updateTransitions_apply_active now h]
  exact updateTransition_complete (ts e) now h hnow

/-- C2 witness: completion at exactly the transition duration on a concrete
mid-fade state. -/
theorem C2_completion_snap_witness :
    (updateTransitions fadingState 300 ShaderEffect.CHROMA).currentIntensity =
        (fadingState ShaderEffect.CHROMA).targetIntensity ∧
      (updateTransitions fadingState 300 ShaderEffect.CHROMA).state = TransitionState.idle ∧
      (updateTransitions fadingState 300 ShaderEffect.CHROMA).isActive =
        decide (0 < (fadingState ShaderEffect.CHROMA).targetIntensity) :=
  C2_completion_snap fadingState 300 ShaderEffect.CHROMA (by decide)
    (by norm_num [fadingState, TRANSITION_DURATION])

/-- C3: for an effect with an intensity control, `startTransition` captures the
current intensity of the entry as the new start intensity (continuity), sets the
target, stamps `startTime = now`, chooses the fading-in phase exactly when the
target is positive, and marks the effect active unconditionally. -/
theorem C3_start_continuity (ts : EffectTransitions) (e : ShaderEffect)
    (target now : ℚ) (hc : ((shaderEffects e).intensity).isSome = true)
    (h0 : 0 ≤ target) (h1 : target ≤ 1) :
    (startTransition ts e target now e).startIntensity = (ts e).currentIntensity ∧
      (startTransition ts e target now e).targetIntensity = target ∧
      (startTransition ts e target now e).startTime = now ∧
      (startTransition ts e target now e).state =
        (if 0 < target then TransitionState.transitioningIn
         else TransitionState.transitioningOut) ∧
      (startTransition ts e target now e).isActive = true := by
  rw [startTransition_apply_self_control ts e target now hc]
  exact ⟨rfl, rfl, rfl, rfl, rfl⟩

/-- C3 witness: restarting a fade toward 0 mid-flight on a concrete state keeps
the current intensity as the new start intensity. -/
theorem C3_start_continuity_witness :
    (startTransition fadingState ShaderEffect.INVERT 0 120 ShaderEffect.INVERT).startIntensity =
        (fadingState ShaderEffect.INVERT).currentIntensity ∧
      (startTransition fadingState ShaderEffect.INVERT 0 120 ShaderEffect.INVERT).targetIntensity = 0 ∧
      (startTransition fadingState ShaderEffect.INVERT 0 120 ShaderEffect.INVERT).startTime = 120 ∧
      (startTransition fadingState ShaderEffect.INVERT 0 120 ShaderEffect.INVERT).state =
        (if (0:ℚ) < 0 then TransitionState.transitioningIn
         else TransitionState.transitioningOut) ∧
      (startTransition fadingState ShaderEffect.INVERT 0 120 ShaderEffect.INVERT).isActive = true :=
  C3_start_continuity fadingState ShaderEffect.INVERT 0 120 (by decide)
    (by norm_num) (by norm_num)

/-- C4: for an effect without an intensity control, `startTransition` is an
immediate step: current, target and start intensity all become the target, the
phase is idle, `isActive` is whether the target is positive — and no
subsequent sequence of `updateTransitions` calls ever changes that entry. -/
theorem C4_binary_step (ts : EffectTransitions) (e : ShaderEffect)
    (target now : ℚ) (hc : (shaderEffects e).intensity = none) :
    (startTransition ts e target now e).currentIntensity = target ∧
      (startTransition ts e target now e).targetIntensity = target ∧
      (startTransition ts e target now e).state = TransitionState.idle ∧
      (startTransition ts e target now e).isActive = decide (0 < target) ∧
      ∀ ns : List ℚ,
        (ns.foldl updateTransitions (startTransition ts e target now)) e =
          startTransition ts e target now e := by
  have hself := startTransition_apply_self_binary ts e target now hc
  refine ⟨?_, ?_, ?_, ?_, ?_⟩
  · rw [hself]
  · rw [hself]
  · rw [hself]
  · rw [hself]
  · intro ns
    exact foldl_preserves_idle ns _ e (by rw [hself])

/-- C4 witness: a concrete binary effect (GRAYSCALE) stepped on and advanced
twice stays at its stepped entry. -/
theorem C4_binary_step_witness :
    (startTransition createInitialTransitions ShaderEffect.GRAYSCALE 1 7
          ShaderEffect.GRAYSCALE).currentIntensity = 1 ∧
      (startTransition createInitialTransitions ShaderEffect.GRAYSCALE 1 7
          ShaderEffect.GRAYSCALE).targetIntensity = 1 ∧
      (startTransition createInitialTransitions ShaderEffect.GRAYSCALE 1 7
          ShaderEffect.GRAYSCALE).state = TransitionState.idle ∧
      (startTransition createInitialTransitions ShaderEffect.GRAYSCALE 1 7
          ShaderEffect.GRAYSCALE).isActive = decide ((0:ℚ) < 1) ∧
      ([8, 500].foldl updateTransitions
          (startTransition createInitialTransitions ShaderEffect.GRAYSCALE 1 7))
          ShaderEffect.GRAYSCALE =
        startTransition createInitialTransitions ShaderEffect.GRAYSCALE 1 7
          ShaderEffect.GRAYSCALE := by
  obtain ⟨h1, h2, h3, h4, h5⟩ :=
    C4_binary_step createInitialTransitions ShaderEffect.GRAYSCALE 1 7 rfl
  exact ⟨h1, h2, h3, h4, h5 [8, 500]⟩

/-- C5: updating a state in which every effect is idle returns the input state
itself, and leaves every phase idle. -/
theorem C5_idle_noop (ts : EffectTransitions) (now : ℚ)
    (h : ∀ e, (ts e).state = TransitionState.idle) :
    updateTransitions ts now = ts ∧
      ∀ e, (updateTransitions ts now e).state = TransitionState.idle := by
  have hact : ¬ hasActiveTransitions ts = true := by
    simp only [hasActiveTransitions, List.any_eq_true, not_exists]
    intro e
    rw [h e]
    simp
  have heq : updateTransitions ts now = ts := by
    rw [updateTransitions, if_neg hact]
  exact ⟨heq, fun e => by rw [heq]; exact h e⟩

/-- C5 witness: the initial all-idle state is returned unchanged. -/
theorem C5_idle_noop_witness :
    updateTransitions createInitialTransitions 1000 = createInitialTransitions ∧
      ∀ e, (updateTransitions createInitialTransitions 1000 e).state =
        TransitionState.idle :=
  C5_idle_noop createInitialTransitions 1000 (fun _ => rfl)

/-- C6: every state reachable from `createInitialTransitions` by any sequence
of `startTransition` and `updateTransitions` calls satisfies the invariant:
the current intensity of an idle effect equals its target intensity. -/
theorem C6_reachable_idle_invariant (ts : EffectTransitions) (h : Reachable ts) :
    IdleInv ts := by
  induction h with
  | init => intro e _; rfl
  | start ts e target now _ ih => exact IdleInv_startTransition ih e target now
  | update ts now _ ih => exact IdleInv_updateTransitions ih now

/-- C6 witness: the invariant at a concrete reachable state (a fade of INVERT
started at time 0 and advanced to completion at time 300). -/
theorem C6_reachable_idle_invariant_witness :
    IdleInv (updateTransitions
      (startTransition createInitialTransitions ShaderEffect.INVERT 1 0) 300) :=
  C6_reachable_idle_invariant _
    (Reachable.update _ 300 (Reachable.start _ ShaderEffect.INVERT 1 0 Reachable.init))

/-- C7: a toggle request is accepted exactly when at least `DEBOUNCE_DELAY_MS`
(50ms) elapsed since the recorded last accepted toggle of the effect (absent
reading as 0); an accepted request stamps the last-accepted time of the effect with
`now`, flips the user-intent flag and calls `startTransition` with target 1 or
0; a rejected request changes nothing; and the gate is keyed per effect: a
request for one effect never touches the recorded time or transition entry of
any other effect. -/
theorem C7_toggle_debounce (s : ToggleState) (e : ShaderEffect) (now : ℚ) :
    (toggleAccepted s e now = true ↔
        DEBOUNCE_DELAY_MS ≤ now - ((s.lastToggleTime e).getD 0)) ∧
      (toggleAccepted s e now = true →
        handleToggleEffect s e now =
          { lastToggleTime := fun x => if x = e then some now else s.lastToggleTime x
            activeEffects := fun x => if x = e then !s.activeEffects e else s.activeEffects x
            transitions :=
              startTransition s.transitions e (if !s.activeEffects e then 1 else 0) now }) ∧
      (toggleAccepted s e now = false → handleToggleEffect s e now = s) ∧
      (∀ x, x ≠ e →
        (handleToggleEffect s e now).lastToggleTime x = s.lastToggleTime x ∧
          (handleToggleEffect s e now).transitions x = s.transitions x) := by
  have hiff : toggleAccepted s e now = true ↔
      DEBOUNCE_DELAY_MS ≤ now - ((s.lastToggleTime e).getD 0) := by
    simp [toggleAccepted, not_lt]
  refine ⟨hiff, ?_, ?_, ?_⟩
  · intro hacc
    have hguard : ¬ now - ((s.lastToggleTime e).getD 0) < DEBOUNCE_DELAY_MS :=
      not_lt.mpr (hiff.mp hacc)
    rw [handleToggleEffect, if_neg hguard]
  · intro hrej
    have hguard : now - ((s.lastToggleTime e).getD 0) < DEBOUNCE_DELAY_MS := by
      by_contra hge
      rw [hiff.mpr (not_lt.mp hge)] at hrej
      exact Bool.noConfusion hrej
    rw [handleToggleEffect, if_pos hguard]
  · intro x hx
    rw [handleToggleEffect]
    split
    · exact ⟨rfl, rfl⟩
    · dsimp only
      exact ⟨by rw [if_neg hx], startTransition_apply_other s.transitions e x _ now hx⟩

/-- C7 witness: from a fresh state, a toggle of INVERT at t=100 is accepted; a
second request at t=110 (10ms later) is rejected and leaves the state
untouched; a third at t=160 (60ms after the accepted one) is accepted. -/
theorem C7_toggle_debounce_witness :
    toggleAccepted toggleStart ShaderEffect.INVERT 100 = true ∧
      toggleAccepted (handleToggleEffect toggleStart ShaderEffect.INVERT 100)
        ShaderEffect.INVERT 110 = false ∧
      handleToggleEffect (handleToggleEffect toggleStart ShaderEffect.INVERT 100)
          ShaderEffect.INVERT 110 =
        handleToggleEffect toggleStart ShaderEffect.INVERT 100 ∧
      toggleAccepted (handleToggleEffect toggleStart ShaderEffect.INVERT 100)
        ShaderEffect.INVERT 160 = true := by
  have c100 := C7_toggle_debounce toggleStart ShaderEffect.INVERT 100
  have a1 : toggleAccepted toggleStart ShaderEffect.INVERT 100 = true :=
    c100.1.mpr (by norm_num [toggleStart, DEBOUNCE_DELAY_MS, Option.getD_none])
  have hs1 := c100.2.1 a1
  have hlast : ((handleToggleEffect toggleStart ShaderEffect.INVERT 100).lastToggleTime
      ShaderEffect.INVERT).getD 0 = 100 := by
    rw [hs1]
    simp
  have a2 : toggleAccepted (handleToggleEffect toggleStart ShaderEffect.INVERT 100)
      ShaderEffect.INVERT 110 = false := by
    have hnot := (C7_toggle_debounce (handleToggleEffect toggleStart ShaderEffect.INVERT 100)
      ShaderEffect.INVERT 110).1
    rw [hlast] at hnot
    by_contra htrue
    have := hnot.mp (by simpa using htrue)
    norm_num [DEBOUNCE_DELAY_MS] at this
  have a3 : toggleAccepted (handleToggleEffect toggleStart ShaderEffect.INVERT 100)
      ShaderEffect.INVERT 160 = true := by
    apply (C7_toggle_debounce (handleToggleEffect toggleStart ShaderEffect.INVERT 100)
      ShaderEffect.INVERT 160).1.mpr
    rw [hlast]
    norm_num [DEBOUNCE_DELAY_MS]
  exact ⟨a1, a2,
    (C7_toggle_debounce (handleToggleEffect toggleStart ShaderEffect.INVERT 100)
      ShaderEffect.INVERT 110).2.2.1 a2, a3⟩

/-- C10: `startTransition` replaces only the entry of the named effect — every
other effect keeps exactly its previous transition record. -/
theorem C10_start_frame (ts : EffectTransitions) (e x : ShaderEffect)
    (target now : ℚ) (h : x ≠ e) : startTransition ts e target now x = ts x := by
  simp only [startTransition]
  rw [if_neg h]

/-- C10 witness: starting a fade of INVERT leaves the GRAYSCALE entry unchanged. -/
theorem C10_start_frame_witness :
    startTransition fadingState ShaderEffect.INVERT 0 50 ShaderEffect.GRAYSCALE =
      fadingState ShaderEffect.GRAYSCALE :=
  C10_start_frame fadingState ShaderEffect.INVERT ShaderEffect.GRAYSCALE 0 50 (by decide)

/-- C8: for positive dimensions, when the video aspect is below the canvas
aspect the coordinates crop vertically by `vCrop = (1 - videoAspect/canvasAspect)/2`
(v spanning `[vCrop, 1-vCrop]`, u the full `[0,1]`), otherwise they crop
horizontally by `uCrop = (1 - canvasAspect/videoAspect)/2` (u spanning
`[uCrop, 1-uCrop]`, v the full `[0,1]`); in particular 1920×1080 video on an
800×800 canvas crops horizontally with `uCrop = 7/32`, within `1/1000` of the
claimed `0.2191`, and full vertical range. -/
theorem C8_texture_coordinates (vw vh cw ch : ℚ)
    (hvw : 0 < vw) (hvh : 0 < vh) (hcw : 0 < cw) (hch : 0 < ch) :
    (vw / vh < cw / ch →
        getTextureCoordinates vw vh cw ch =
          [0, (1 - (vw / vh) / (cw / ch)) / 2, 1, (1 - (vw / vh) / (cw / ch)) / 2,
           0, 1 - (1 - (vw / vh) / (cw / ch)) / 2,
           0, 1 - (1 - (vw / vh) / (cw / ch)) / 2, 1, (1 - (vw / vh) / (cw / ch)) / 2,
           1, 1 - (1 - (vw / vh) / (cw / ch)) / 2] ∧
          0 < (1 - (vw / vh) / (cw / ch)) / 2 ∧
          (1 - (vw / vh) / (cw / ch)) / 2 < 1 / 2) ∧
      (¬ vw / vh < cw / ch →
        getTextureCoordinates vw vh cw ch =
          [(1 - (cw / ch) / (vw / vh)) / 2, 0, 1 - (1 - (cw / ch) / (vw / vh)) / 2, 0,
           (1 - (cw / ch) / (vw / vh)) / 2, 1,
           (1 - (cw / ch) / (vw / vh)) / 2, 1, 1 - (1 - (cw / ch) / (vw / vh)) / 2, 0,
           1 - (1 - (cw / ch) / (vw / vh)) / 2, 1] ∧
          0 ≤ (1 - (cw / ch) / (vw / vh)) / 2 ∧
          (1 - (cw / ch) / (vw / vh)) / 2 < 1 / 2) ∧
      (getTextureCoordinates 1920 1080 800 800 =
          [7/32, 0, 25/32, 0, 7/32, 1, 7/32, 1, 25/32, 0, 25/32, 1] ∧
        |(7:ℚ)/32 - 2191/10000| < 1/1000) := by
  have hva : 0 < vw / vh := div_pos hvw hvh
  have hca : 0 < cw / ch := div_pos hcw hch
  refine ⟨?_, ?_, ?_, ?_⟩
  · intro hlt
    have hq1 : (vw / vh) / (cw / ch) < 1 := (div_lt_one hca).mpr hlt
    have hq0 : 0 < (vw / vh) / (cw / ch) := div_pos hva hca
    refine ⟨?_, by linarith, by linarith⟩
    rw [getTextureCoordinates, if_pos hlt]
  · intro hge
    have hq1 : (cw / ch) / (vw / vh) ≤ 1 := (div_le_one hva).mpr (not_lt.mp hge)
    have hq0 : 0 < (cw / ch) / (vw / vh) := div_pos hca hva
    refine ⟨?_, by linarith, by linarith⟩
    rw [getTextureCoordinates, if_neg hge]
  · have : ¬ (1920 : ℚ) / 1080 < 800 / 800 := by norm_num
    rw [getTextureCoordinates, if_neg this]
    norm_num
  · rw [abs_lt]
    norm_num

/-- C8 witness: the general theorem applied at the concrete claimed
1920×1080 / 800×800 instance (the else branch fires). -/
theorem C8_texture_coordinates_witness :
    getTextureCoordinates 1920 1080 800 800 =
      [(1 - ((800:ℚ) / 800) / (1920 / 1080)) / 2, 0,
       1 - (1 - ((800:ℚ) / 800) / (1920 / 1080)) / 2, 0,
       (1 - ((800:ℚ) / 800) / (1920 / 1080)) / 2, 1,
       (1 - ((800:ℚ) / 800) / (1920 / 1080)) / 2, 1,
       1 - (1 - ((800:ℚ) / 800) / (1920 / 1080)) / 2, 0,
       1 - (1 - ((800:ℚ) / 800) / (1920 / 1080)) / 2, 1] ∧
      0 ≤ (1 - ((800:ℚ) / 800) / (1920 / 1080)) / 2 ∧
      (1 - ((800:ℚ) / 800) / (1920 / 1080)) / 2 < 1 / 2 :=
  ((C8_texture_coordinates 1920 1080 800 800 (by norm_num) (by norm_num)
      (by norm_num) (by norm_num)).2.1) (by norm_num)

lemma effectDraws_length (k : ℕ) (l : List ShaderEffect) :
    (effectDraws k l).length = l.length := by
  induction l generalizing k with
  | nil => rfl
  | cons e rest ih => simp [effectDraws, ih]

lemma pingPong_succ_flip (k : ℕ) :
    (⟨((pingPong (k + 1)).val + 1) % 2, by omega⟩ : Fin 2) = pingPong (k + 2) := by
  apply Fin.ext
  simp only [pingPong]
  omega

lemma foldl_applyEffectPass (l : List ShaderEffect) (k : ℕ) (c : Image)
    (ds : List DrawCall) :
    l.foldl applyEffectPass
        { currentTexture := .targetTex (pingPong k)
          currentContent := c
          currentRenderTarget := pingPong (k + 1)
          draws := ds } =
      { currentTexture := .targetTex (pingPong (k + l.length))
        currentContent := l.foldl (fun img e => .effected e img) c
        currentRenderTarget := pingPong (k + l.length + 1)
        draws := ds ++ effectDraws k l } := by
  induction l generalizing k c ds with
  | nil => simp [effectDraws]
  | cons e rest ih =>
    rw [List.foldl_cons]
    have hstep :
        applyEffectPass
            { currentTexture := .targetTex (pingPong k)
              currentContent := c
              currentRenderTarget := pingPong (k + 1)
              draws := ds } e =
          { currentTexture := .targetTex (pingPong (k + 1))
            currentContent := .effected e c
            currentRenderTarget := pingPong (k + 1 + 1)
            draws := ds ++
              [{ program := .effectProg e
                 target := .renderTarget (pingPong (k + 1))
                 coords := .standard
                 source := .targetTex (pingPong k) }] } := by
      rw [applyEffectPass]
      have := pingPong_succ_flip k
      simp only [this]
    rw [hstep, List.foldl_cons] at *
    rw [ih (k + 1) (.effected e c) _]
    have harith : k + 1 + rest.length = k + (rest.length + 1) := by omega
    simp [effectDraws, harith, List.append_assoc]

/-- C9: with zero active effects `renderFrame` issues exactly one draw — the
video-sampling program straight to the screen with aspect-corrected
coordinates, showing the aspect-corrected video. With N ≥ 1 active effects
(the registry-order filter of the active set) it issues the video-sampling
pass into render target 0, then one pass per active effect in registry order —
each reading the target the previous pass wrote and writing the other — then
one passthrough draw of the final target to the screen, N+2 draws in all, and
the screen shows the N effects folded in order over the aspect-corrected
video. -/
theorem C9_render_graph (act : ShaderEffect → Bool) :
    (allEffects.filter act = [] →
        renderFrame act =
          ([{ program := .videoSampling, target := .screen
              coords := .aspect, source := .videoTex }], .aspectVideo)) ∧
      (allEffects.filter act ≠ [] →
        (renderFrame act).1 =
            { program := .videoSampling, target := .renderTarget 0
              coords := .aspect, source := .videoTex } ::
              (effectDraws 0 (allEffects.filter act) ++
                [{ program := .passthrough, target := .screen, coords := .standard
                   source := .targetTex (pingPong (allEffects.filter act).length) }]) ∧
          (renderFrame act).2 =
            (allEffects.filter act).foldl (fun img e => Image.effected e img)
              Image.aspectVideo ∧
          (renderFrame act).1.length = (allEffects.filter act).length + 2) := by
  constructor
  · intro hemp
    rw [renderFrame]
    simp [hemp]
  · intro hne
    have hlen : 0 < (allEffects.filter act).length := List.length_pos.mpr hne
    have hzero : (0 : Fin 2) = pingPong 0 := rfl
    have hone : (1 : Fin 2) = pingPong (0 + 1) := rfl
    rw [renderFrame]
    simp only [gt_iff_lt, hlen, if_pos, hzero, hone]
    rw [foldl_applyEffectPass (allEffects.filter act) 0 Image.aspectVideo _]
    refine ⟨?_, rfl, ?_⟩
    · simp
    · simp [effectDraws_length]

/-- C9 witness: with GRAYSCALE and SWIRL active the frame is drawn in exactly
four passes — video sampling into target 0, GRAYSCALE into target 1 reading
target 0, SWIRL into target 0 reading target 1, passthrough of target 0 to the
screen — and the screen shows SWIRL applied after GRAYSCALE. -/
theorem C9_render_graph_witness :
    (renderFrame actTwo).1 =
        [{ program := .videoSampling, target := .renderTarget 0
           coords := .aspect, source := .videoTex },
         { program := .effectProg .GRAYSCALE, target := .renderTarget 1
           coords := .standard, source := .targetTex 0 },
         { program := .effectProg .SWIRL, target := .renderTarget 0
           coords := .standard, source := .targetTex 1 },
         { program := .passthrough, target := .screen
           coords := .standard, source := .targetTex 0 }] ∧
      (renderFrame actTwo).2 =
        Image.effected .SWIRL (Image.effected .GRAYSCALE Image.aspectVideo) := by
  obtain ⟨-, hmain⟩ := C9_render_graph actTwo
  obtain ⟨hdraws, hcontent, -⟩ := hmain (by decide)
  constructor
  · rw [hdraws]
    decide
  · rw [hcontent]
    decide
